import Mathlib

/-
  Verification of the authentication-negotiation core of ansys/openapi-common.

  The development shallowly embeds, from the Python sources:
  * the `WWW-Authenticate` header parser of `_util.py` (the exact pyparsing
    grammar built in `AuthenticateHeaderParser.__init__`, together with
    `parse_header` and `_render_options`),
  * the case-insensitive ordered dictionary `CaseInsensitiveOrderedDict`,
  * the builder state machine of `_session.py` (`ApiClientFactory`,
    `OIDCSessionBuilder`) with HTTP traffic abstracted as a function from the
    session's authentication setting to the server's response,
  * the OIDC mandatory-field validation and the callback-code retrieval of
    `_oidc.py`.

  pyparsing semantics embedded here (matching pyparsing 3.x):
  * every leaf expression skips leading whitespace in " \n\t\r";
  * `Word(cs)` greedily takes one or more characters from `cs`;
  * `Combine(Word(t68) + ZeroOrMore("="))` skips leading whitespace as a whole
    but matches its parts adjacently;
  * `quotedString` matches a greedy maximal body of
    plain char | doubled quote | backslash escape, then requires the closing
    quote immediately after the body (the closing quote is a separate adjacent
    literal, so there is no backtracking into the body);
  * `a ^ b` (Or) picks the alternative with the longest match, the first one
    listed on a tie;
  * `delimitedList(e, delim)` is `e` followed by greedily repeated
    `Suppress(delim) + e`, where a failed iteration consumes nothing;
  * `parseString(s, parseAll=True)` requires the whole input (up to trailing
    whitespace) to be consumed, and any failure surfaces as a
    `ValueError("Failed to parse value")` in `parse_header`.
-/

namespace OpenapiCommon

/-! ### Character classes of the grammar (from `AuthenticateHeaderParser.__init__`) -/

/-- pyparsing default whitespace characters. -/
def wsChar (c : Char) : Bool :=
  c == ' ' || c == '\n' || c == '\t' || c == '\r'

def skipWs (cs : List Char) : List Char :=
  cs.dropWhile wsChar

def isDigitCh (c : Char) : Bool :=
  decide ('0' ≤ c) && decide (c ≤ '9')

def isAlphaCh (c : Char) : Bool :=
  (decide ('a' ≤ c) && decide (c ≤ 'z')) || (decide ('A' ≤ c) && decide (c ≤ 'Z'))

def isAlnumCh (c : Char) : Bool :=
  isAlphaCh c || isDigitCh c

/-- Punctuation of `token_char = "!#$%&'*+-.^_`|~"`; the apostrophe is
`Char.ofNat 39` and the backtick `Char.ofNat 96`. -/
def tokenPunct : List Char :=
  ['!', '#', '$', '%', '&', Char.ofNat 39, '*', '+', '-', '.', '^', '_',
   Char.ofNat 96, '|', '~']

def tokenChar (c : Char) : Bool :=
  tokenPunct.contains c || isDigitCh c || isAlphaCh c

/-- `token68_char = "-._~+/" + nums + alphas`. -/
def token68Char (c : Char) : Bool :=
  (['-', '.', '_', '~', '+', '/'] : List Char).contains c || isDigitCh c || isAlphaCh c

def hexChar (c : Char) : Bool :=
  isDigitCh c || (decide ('a' ≤ c) && decide (c ≤ 'f')) || (decide ('A' ≤ c) && decide (c ≤ 'F'))

/-! ### Leaf parsers

Each parser takes the remaining input and returns the parsed fragment and the
rest of the input, or `none` on failure. -/

/-- `pp.Word(p)`: skip whitespace, then greedily take one or more characters
satisfying `p`. -/
def wordP (p : Char → Bool) (cs : List Char) : Option (List Char × List Char) :=
  let cs1 := skipWs cs
  let w := cs1.takeWhile p
  if w.isEmpty then none else some (w, cs1.drop w.length)

/-- `pp.Word(init, body)`: first character from `init`, remaining greedily
from `body`. -/
def wordInitP (init body : Char → Bool) (cs : List Char) : Option (List Char × List Char) :=
  match skipWs cs with
  | [] => none
  | c :: rest =>
    if init c then
      let w := rest.takeWhile body
      some (c :: w, rest.drop w.length)
    else none

/-- `pp.Literal(lit)` (with suppression): skip whitespace and match `lit`
exactly, returning only the rest. -/
def litP (lit : List Char) (cs : List Char) : Option (List Char) :=
  let cs1 := skipWs cs
  if lit.isPrefixOf cs1 then some (cs1.drop lit.length) else none

/-- `token68 = Combine(Word(token68_char) + ZeroOrMore("="))`: leading
whitespace skipped once, parts adjacent. -/
def token68P (cs : List Char) : Option (List Char × List Char) :=
  let cs1 := skipWs cs
  let w := cs1.takeWhile token68Char
  if w.isEmpty then none
  else
    let rest1 := cs1.drop w.length
    let eqs := rest1.takeWhile (fun c => c == '=')
    some (w ++ eqs, rest1.drop eqs.length)

/-- Body of pyparsing's `quotedString` for quote character `q`: the greedy
maximal run of `plain char | qq | backslash escape`, returned together with
the unconsumed rest (which starts at the expected closing quote).  `fuel`
bounds the recursion; every step consumes at least one character. -/
def munchF (q : Char) : Nat → List Char → (List Char × List Char)
  | 0, cs => ([], cs)
  | Nat.succ _, [] => ([], [])
  | Nat.succ n, c :: cs =>
    if c == q then
      match cs with
      | c2 :: cs2 =>
        if c2 == q then
          let r := munchF q n cs2
          (c :: c2 :: r.1, r.2)
        else ([], c :: cs)
      | [] => ([], c :: cs)
    else if c == '\n' || c == '\r' then ([], c :: cs)
    else if c == '\\' then
      match cs with
      | [] => ([], c :: cs)
      | e :: cs2 =>
        if e == 'x' then
          let hexs := cs2.takeWhile hexChar
          if hexs.isEmpty then ([], c :: cs)
          else
            let r := munchF q n (cs2.drop hexs.length)
            (c :: e :: (hexs ++ r.1), r.2)
        else
          let r := munchF q n cs2
          (c :: e :: r.1, r.2)
    else
      let r := munchF q n cs
      (c :: r.1, r.2)

/-- The double-quote character. -/
def dq : Char := '"'

/-- The single-quote character (`Char.ofNat 39`). -/
def sq : Char := Char.ofNat 39

/-- `quotedString.setParseAction(removeQuotes)` at an exact position: an
opening quote, the maximal body, and the closing quote; the result is the raw
body (only the outer quotes are removed). -/
def quotedAt (cs1 : List Char) : Option (List Char × List Char) :=
  match cs1 with
  | [] => none
  | c :: rest =>
    if c == dq || c == sq then
      let r := munchF c (rest.length + 1) rest
      match r.2 with
      | c2 :: rest2 => if c2 == c then some (r.1, rest2) else none
      | [] => none
    else none

def quotedP (cs : List Char) : Option (List Char × List Char) :=
  quotedAt (skipWs cs)

/-! ### The grammar of `AuthenticateHeaderParser` -/

/-- `name_value_pair = Word(alphas, alphanums) + Suppress("=") + quotedString`. -/
def nvpP (cs : List Char) : Option ((List Char × List Char) × List Char) :=
  match wordInitP isAlphaCh isAlnumCh cs with
  | none => none
  | some (n, cs1) =>
    match litP ['='] cs1 with
    | none => none
    | some cs2 =>
      match quotedP cs2 with
      | none => none
      | some (v, cs3) => some ((n, v), cs3)

/-- One iteration of the parameter list: the default delimiter `","` followed
by a name/value pair. -/
def commaNvp (cs : List Char) : Option ((List Char × List Char) × List Char) :=
  match litP [','] cs with
  | none => none
  | some cs1 => nvpP cs1

/-- Greedy tail of `delimitedList(Group(name_value_pair))`. -/
def paramsTailF : Nat → List Char → (List (List Char × List Char) × List Char)
  | 0, cs => ([], cs)
  | Nat.succ n, cs =>
    match commaNvp cs with
    | some (p, cs2) =>
      let r := paramsTailF n cs2
      (p :: r.1, r.2)
    | none => ([], cs)

/-- `params = Dict(delimitedList(Group(name_value_pair)))`. -/
def paramsP (cs : List Char) : Option (List (List Char × List Char) × List Char) :=
  match nvpP cs with
  | none => none
  | some (p, cs1) =>
    let r := paramsTailF (cs1.length + 1) cs1
    some (p :: r.1, r.2)

/-- Result of one `credentials` match: a bare scheme token, a scheme with a
token68 credential, or a scheme with a parameter list. -/
inductive Creds where
  | bare (scheme : List Char)
  | tok (scheme : List Char) (credential : List Char)
  | withParams (scheme : List Char) (ps : List (List Char × List Char))
deriving DecidableEq, Repr

def Creds.scheme : Creds → List Char
  | .bare s => s
  | .tok s _ => s
  | .withParams s _ => s

/-- `credentials = token + (params ^ token68) ^ token`: both alternatives of
each `^` are evaluated and the longest match wins (`params` on a tie, being
listed first); when the inner Or fails the bare token remains. -/
def credP (cs : List Char) : Option (Creds × List Char) :=
  match wordP tokenChar cs with
  | none => none
  | some (t, cs1) =>
    match paramsP cs1, token68P cs1 with
    | some (ps, r1), some (t68, r2) =>
      if r1.length ≤ r2.length then some (.withParams t ps, r1)
      else some (.tok t t68, r2)
    | some (ps, r1), none => some (.withParams t ps, r1)
    | none, some (t68, r2) => some (.tok t t68, r2)
    | none, none => some (.bare t, cs1)

/-- One iteration of the top-level list: the delimiter `", "` followed by a
`credentials` match. -/
def delimCred (cs : List Char) : Option (Creds × List Char) :=
  match litP [',', ' '] cs with
  | none => none
  | some cs1 => credP cs1

/-- Greedy tail of `delimitedList(credentials("schemes*"), delim=", ")`. -/
def authTailF : Nat → List Char → (List Creds × List Char)
  | 0, cs => ([], cs)
  | Nat.succ n, cs =>
    match delimCred cs with
    | some (c, cs2) =>
      let r := authTailF n cs2
      (c :: r.1, r.2)
    | none => ([], cs)

/-- The full `auth_parser` applied at the start of the input. -/
def authP (cs : List Char) : Option (List Creds × List Char) :=
  match credP cs with
  | none => none
  | some (c, cs1) =>
    let r := authTailF (cs1.length + 1) cs1
    some (c :: r.1, r.2)

/-! ### `CaseInsensitiveOrderedDict` and `_render_options` -/

/-- ASCII lowercase of one character (Python `str.lower` restricted to the
ASCII range, which covers every key this layer lowercases). -/
def lowerChar (c : Char) : Char :=
  if (decide ('A' ≤ c) && decide (c ≤ 'Z')) = true then Char.ofNat (c.toNat + 32) else c

/-- ASCII lowercase of a string, computed on the character list. -/
def pyLower (s : String) : String :=
  String.mk (s.data.map lowerChar)

/-- Value attached to one scheme in the parsed header: `None`, a token68
credential string, or a parameter mapping (from `_render_options`). -/
inductive SchemeVal where
  | nul
  | token (t : String)
  | paramMap (ps : List (String × String))
deriving DecidableEq, Repr

/-- `CaseInsensitiveOrderedDict.__setitem__`: assignment under the lowercased
key; an existing key keeps its position and gets the new value, a new key is
appended. -/
def ciodSet {α : Type} (d : List (String × α)) (k : String) (v : α) : List (String × α) :=
  if d.any (fun p => p.1 == pyLower k) then
    d.map (fun p => if p.1 == pyLower k then (p.1, v) else p)
  else d ++ [(pyLower k, v)]

/-- `CaseInsensitiveOrderedDict.__getitem__` / `.get`: lookup under the
lowercased key. -/
def ciodGet {α : Type} (d : List (String × α)) (k : String) : Option α :=
  (d.find? (fun p => p.1 == pyLower k)).map (fun p => p.2)

/-- `k in d` for `CaseInsensitiveOrderedDict`. -/
def ciodContains {α : Type} (d : List (String × α)) (k : String) : Bool :=
  d.any (fun p => p.1 == pyLower k)

/-- Assignment in a plain Python `dict` (case-sensitive; an existing key keeps
its position and gets the new value). -/
def pyDictSet {α : Type} (d : List (String × α)) (k : String) (v : α) : List (String × α) :=
  if d.any (fun p => p.1 == k) then
    d.map (fun p => if p.1 == k then (p.1, v) else p)
  else d ++ [(k, v)]

/-- `AuthenticateHeaderParser._render_options`: a length-1 match is `None`, a
token68 credential is returned as-is, and parameter pairs are collected first
into a `dict` comprehension and then into a `CaseInsensitiveOrderedDict`. -/
def renderOptions : Creds → SchemeVal
  | .bare _ => .nul
  | .tok _ t => .token (String.mk t)
  | .withParams _ ps =>
    let pairs := ps.map (fun p => (String.mk p.1, String.mk p.2))
    let pyd := pairs.foldl (fun d p => pyDictSet d p.1 p.2) []
    .paramMap (pyd.foldl (fun d p => ciodSet d p.1 p.2) [])

/-- `AuthenticateHeaderParser.parse_header` /  `parse_authenticate`: parse the
whole header (trailing whitespace allowed), rendering each scheme's options
into a `CaseInsensitiveOrderedDict`; any parse failure raises
`ValueError("Failed to parse value")`. -/
def parseHeader (value : String) : Except String (List (String × SchemeVal)) :=
  match authP value.toList with
  | none => Except.error "Failed to parse value"
  | some (schemes, rest) =>
    if (skipWs rest).isEmpty then
      Except.ok (schemes.foldl
        (fun out sch => ciodSet out (String.mk sch.scheme) (renderOptions sch)) [])
    else Except.error "Failed to parse value"

/-- `parse_authenticate` from `_util.py` (delegates to the singleton parser's
`parse_header`). -/
def parseAuthenticate (value : String) : Except String (List (String × SchemeVal)) :=
  parseHeader value

/-! ### Strings and messages

Python messages containing apostrophes are built by concatenation with
`apos` (`Char.ofNat 39`). -/

def apos : String := String.mk [Char.ofNat 39]

/-- Contiguous-sublist test: does `needle` occur inside `hay`? -/
def infixAt : List Char → List Char → Bool
  | needle, [] => needle.isEmpty
  | needle, c :: rest => needle.isPrefixOf (c :: rest) || infixAt needle rest

/-- Substring test (Python `needle in haystack`). -/
def strContains (hay needle : String) : Bool :=
  infixAt needle.toList hay.toList

/-! ### Responses and exceptions (`_exceptions.py`) -/

/-- A `requests.Response` as far as this layer inspects it: status code,
reason phrase, URL, body text and the (optional) `WWW-Authenticate` header. -/
structure Response where
  status : Nat
  reason : String
  url : String
  body : String
  wwwAuthenticate : Option String
deriving DecidableEq, Repr

/-- `200 <= status_code < 300`. -/
def Response.is2xx (r : Response) : Bool :=
  decide (200 ≤ r.status) && decide (r.status < 300)

/-- The message built by `ApiConnectionException.__init__`. -/
def apiConnectionMessage (r : Response) : String :=
  let m := "Request url " ++ apos ++ r.url ++ apos ++ " failed with reason "
    ++ toString r.status ++ ": " ++ r.reason ++ "."
  if r.body == "" then m else m ++ "\n" ++ r.body

/-- The Python exceptions this layer raises.  `apiConnection` is
`ApiConnectionException` and carries the offending response;
`attributeError` is the interpreter-raised `AttributeError` of a failed
attribute lookup; `timeoutError` exists so that claims about `TimeoutError`
can be stated (the embedded code never produces it). -/
inductive PyError where
  | apiConnection (response : Response)
  | connectionError (msg : String)
  | valueError (msg : String)
  | importError (msg : String)
  | attributeError (msg : String)
  | timeoutError (msg : String)
deriving DecidableEq, Repr

/-! ### The factory state machine (`_session.py`)

Outbound HTTP traffic is abstracted as an environment
`env : AuthSetting → Response` mapping the authentication configured on the
session to the deterministic response of the server. -/

/-- The authentication configured on the requests session
(`self._session.auth`, or the OAuth session substituted by the builder). -/
inductive AuthSetting where
  | noAuth
  | ntlmAuth (user pass : String)
  | basicAuth (user pass : String)
  | negotiateAuth
  | oauth (refreshToken : String) (accessToken : Option String)
deriving DecidableEq, Repr

/-- `ApiClientFactory` state: API URL, current session authentication, an
abstract handle for the session configuration, and the `_configured` flag. -/
structure Factory where
  apiUrl : String
  sessionAuth : AuthSetting
  sessionConfig : Nat
  configured : Bool
deriving DecidableEq, Repr

/-- `ApiClientFactory.__init__`: a fresh session with no authentication and
`_configured = False`. -/
def mkApiClientFactory (apiUrl : String) (sessionConfig : Nat) : Factory :=
  { apiUrl := apiUrl, sessionAuth := .noAuth, sessionConfig := sessionConfig,
    configured := false }

/-- The `ApiClient` returned by `connect`: built from the factory's session,
API URL and session configuration. -/
structure ApiClient where
  sessionAuth : AuthSetting
  apiUrl : String
  sessionConfig : Nat
deriving DecidableEq, Repr

/-- `ApiClientFactory.connect` (including `_validate_builder`). -/
def connect (f : Factory) : Except PyError ApiClient :=
  if f.configured then
    Except.ok { sessionAuth := f.sessionAuth, apiUrl := f.apiUrl,
                sessionConfig := f.sessionConfig }
  else Except.error (.valueError "No authentication configured yet.")

/-- `ApiClientFactory.__test_connection`: GET the API URL with the session's
current authentication; `True` on 2xx, otherwise `ApiConnectionException`. -/
def testConnection (env : AuthSetting → Response) (f : Factory) : Except PyError Bool :=
  let resp := env f.sessionAuth
  if resp.is2xx then Except.ok true else Except.error (.apiConnection resp)

/-- The `AuthenticationWarning` message issued on an anonymous-accepting
server. -/
def anonymousWarning : String :=
  "Credentials were provided but server accepts anonymous connections. Continuing without credentials."

/-- `ApiClientFactory.__handle_initial_response`: 2xx configures the factory
and warns; a status other than 2xx/401 raises `ApiConnectionException`; 401
returns `None` so negotiation proceeds to challenge parsing. -/
def handleInitialResponse (f : Factory) (initialResponse : Response) :
    Except PyError (Option Factory × List String) :=
  if initialResponse.is2xx then
    Except.ok (some { f with configured := true }, [anonymousWarning])
  else if initialResponse.status ≠ 401 then
    Except.error (.apiConnection initialResponse)
  else
    Except.ok (none, [])

/-- `ApiClientFactory.__get_authenticate_header`: missing header raises
`ValueError`, otherwise the header is parsed by `parse_authenticate` (whose
failure is a `ValueError` as well). -/
def getAuthenticateHeader (resp : Response) : Except PyError (List (String × SchemeVal)) :=
  match resp.wwwAuthenticate with
  | none => Except.error (.valueError "No www-authenticate header was provided. Cannot continue...")
  | some h =>
    match parseAuthenticate h with
    | .error m => Except.error (.valueError m)
    | .ok d => Except.ok d

/-- `ApiClientFactory.with_anonymous`. -/
def withAnonymous (env : AuthSetting → Response) (f : Factory) :
    Except PyError (Factory × List String) :=
  match testConnection env f with
  | .ok _ => Except.ok ({ f with configured := true }, [])
  | .error e => Except.error e

/-- The username actually used: `domain\username` when a domain is given. -/
def credUser (username : String) (domain : Option String) : String :=
  match domain with
  | some d => d ++ "\\" ++ username
  | none => username

/-- `ApiClientFactory.with_credentials`: probe, then — per the source — try
NTLM when `Negotiate` or `NTLM` is offered and the platform is Windows
(a non-2xx on the NTLM re-validation raises `ApiConnectionException` out of
`__test_connection`, so `Basic` is never attempted after a failed NTLM
attempt); otherwise try `Basic` when offered; otherwise raise
`ConnectionError`. -/
def withCredentials (env : AuthSetting → Response) (platformWindows : Bool)
    (username password : String) (domain : Option String) (f : Factory) :
    Except PyError (Factory × List String) :=
  let uname := credUser username domain
  let initialResponse := env f.sessionAuth
  match handleInitialResponse f initialResponse with
  | .error e => Except.error e
  | .ok (some f1, w) => Except.ok (f1, w)
  | .ok (none, _) =>
    match getAuthenticateHeader initialResponse with
    | .error e => Except.error e
    | .ok headers =>
      if (ciodContains headers "Negotiate" || ciodContains headers "NTLM")
          && platformWindows then
        let fN := { f with sessionAuth := AuthSetting.ntlmAuth uname password }
        match testConnection env fN with
        | .ok _ => Except.ok ({ fN with configured := true }, [])
        | .error e => Except.error e
      else if ciodContains headers "Basic" then
        let fB := { f with sessionAuth := AuthSetting.basicAuth uname password }
        match testConnection env fB with
        | .ok _ => Except.ok ({ fB with configured := true }, [])
        | .error e => Except.error e
      else Except.error (.connectionError "Unable to connect with credentials provided.")

/-- `ApiClientFactory.with_autologon`. -/
def withAutologon (env : AuthSetting → Response)
    (platformWindows linuxKerberosEnabled : Bool) (f : Factory) :
    Except PyError (Factory × List String) :=
  if !(platformWindows || linuxKerberosEnabled) then
    Except.error (.importError "Kerberos is not enabled. To use it, run `pip install ansys-openapi-common[linux-kerberos]`.")
  else
    let initialResponse := env f.sessionAuth
    match handleInitialResponse f initialResponse with
    | .error e => Except.error e
    | .ok (some f1, w) => Except.ok (f1, w)
    | .ok (none, _) =>
      match getAuthenticateHeader initialResponse with
      | .error e => Except.error e
      | .ok headers =>
        if ciodContains headers "Negotiate" then
          let fN := { f with sessionAuth := AuthSetting.negotiateAuth }
          match testConnection env fN with
          | .ok _ => Except.ok ({ fN with configured := true }, [])
          | .error e => Except.error e
        else Except.error (.connectionError "Unable to connect with autologon.")

/-! ### OIDC subsystem (`_oidc.py`) -/

/-- The mandatory `Bearer` challenge parameters
(`OIDCSessionFactory._parse_unauthorized_header`). -/
def mandatoryBearerHeaders : List String :=
  ["redirecturi", "authority", "clientid"]

/-- The mandatory well-known configuration parameters
(`OIDCSessionFactory._fetch_and_parse_well_known`). -/
def mandatoryWellKnownParameters : List String :=
  ["authorization_endpoint", "token_endpoint"]

/-- The fields of `mandatory` that are absent from the (case-insensitive)
key list `present`, in the order of `mandatory`. -/
def missingHeaders (present : List String) (mandatory : List String) : List String :=
  mandatory.filter (fun h => !(present.any (fun k => pyLower k == h)))

/-- Message for more than one missing `Bearer` parameter: the names joined by
a `", "` separator written between double quotes, the whole list wrapped in
single quotes. -/
def bearerMissingMessageMulti (missing : List String) : String :=
  "Unable to connect with OpenID Connect. Mandatory headers " ++ apos
    ++ String.intercalate "\", \"" missing ++ apos
    ++ " were not provided. Cannot continue..."

/-- Message for a single missing `Bearer` parameter. -/
def bearerMissingMessageSingle (name : String) : String :=
  "Unable to connect with OpenID Connect. Mandatory header " ++ apos ++ name
    ++ apos ++ " was not provided. Cannot continue..."

/-- Mandatory-field validation of `_parse_unauthorized_header` (lines
281-309): given the parsed `Bearer` challenge parameters (`none` when the
challenge carried no parameters, which the source replaces by an empty
case-insensitive dict), fail with a `ConnectionError` naming the missing
mandatory fields, or return the parameters. -/
def bearerMandatoryCheck (params? : Option (List (String × String))) :
    Except PyError (List (String × String)) :=
  let bearerParams := params?.getD []
  let missing := missingHeaders (bearerParams.map (fun p => p.1)) mandatoryBearerHeaders
  if missing.length > 1 then
    Except.error (.connectionError (bearerMissingMessageMulti missing))
  else
    match missing with
    | [m] => Except.error (.connectionError (bearerMissingMessageSingle m))
    | _ => Except.ok bearerParams

/-- Message for more than one missing well-known parameter: names joined by a
plain `", "`. -/
def wellKnownMissingMessageMulti (missing : List String) : String :=
  "Unable to connect with OpenID Connect. Mandatory well-known parameters " ++ apos
    ++ String.intercalate ", " missing ++ apos
    ++ " were not provided. Cannot continue..."

/-- Message for a single missing well-known parameter. -/
def wellKnownMissingMessageSingle (name : String) : String :=
  "Unable to connect with OpenID Connect. Well-known parameter " ++ apos ++ name
    ++ apos ++ " was not provided. Cannot continue..."

/-- Mandatory-field validation of `_fetch_and_parse_well_known` (lines
332-354): the fetched JSON configuration is a case-insensitive dict; fail
with a `ConnectionError` naming the missing mandatory endpoints, or return
the configuration. -/
def wellKnownMandatoryCheck (oidcConfiguration : List (String × String)) :
    Except PyError (List (String × String)) :=
  let missing := missingHeaders (oidcConfiguration.map (fun p => p.1))
    mandatoryWellKnownParameters
  if missing.length > 1 then
    Except.error (.connectionError (wellKnownMissingMessageMulti missing))
  else
    match missing with
    | [m] => Except.error (.connectionError (wellKnownMissingMessageSingle m))
    | _ => Except.ok oidcConfiguration

/-! ### Callback listener and authorization code (`_oidc.py`, `_util.py`)

`OIDCSessionFactory._get_auth_code` sets the listener's timeout, runs
`handle_request`, and then evaluates
`auth_code = self._callback_server.auth_code`.  The wait outcome is
abstracted as `Option String`: `some url` when a callback GET arrived within
the login timeout (the handler stores the request URL into the listener's
`_auth_code` queue), `none` when the wait timed out (nothing was stored).
`OIDCCallbackHTTPServer` itself (`_util.py` lines 222-241) defines no
`auth_code` attribute — only the `_auth_code` queue created in `__init__`
and the `get_auth_code` coroutine — and neither `HTTPServer` nor any other
base class supplies `auth_code` or a `__getattr__` hook, so the attribute
read raises `AttributeError` before the rest of the function runs. -/

def authCodeValueErrorMsg : String :=
  "No authorization code returned by OpenID Connect identity provider."

/-- CPython message of the failed attribute lookup on an
`OIDCCallbackHTTPServer` instance. -/
def callbackServerAttrErrorMsg (name : String) : String :=
  apos ++ "OIDCCallbackHTTPServer" ++ apos ++ " object has no attribute "
    ++ apos ++ name ++ apos

/-- The names an attribute read on an `OIDCCallbackHTTPServer` instance can
resolve: the `_auth_code` queue set in `__init__` and the `get_auth_code`
coroutine (`_util.py` lines 222-241), plus what `HTTPServer`/`BaseServer`
provide (`timeout`, `handle_request`, `server_close`, ...).  `auth_code` is
not among them and no class in the MRO defines `__getattr__`. -/
def callbackServerAttributes : List String :=
  ["_auth_code", "get_auth_code", "timeout", "handle_request", "server_close"]

/-- Python attribute read `self._callback_server.<name>`: a name resolved by
neither the instance nor any class in the MRO raises `AttributeError`. -/
def readCallbackServerAttr (name : String) : Except PyError Unit :=
  if callbackServerAttributes.contains name then Except.ok ()
  else Except.error (.attributeError (callbackServerAttrErrorMsg name))

/-- The message of the `AttributeError` raised at the
`self._callback_server.auth_code` read of `_get_auth_code`. -/
def authCodeAttrErrorMsg : String := callbackServerAttrErrorMsg "auth_code"

/-- `_get_auth_code` (`_oidc.py` lines 210-234) after the callback wait:
the `auth_code` attribute read raises `AttributeError` on both wait
outcomes; the falsy check with its
`ValueError("No authorization code returned ...")` and the return of the
captured URL (kept below as written in the source) are unreachable. -/
def getAuthCode (callbackResult : Option String) : Except PyError String :=
  match readCallbackServerAttr "auth_code" with
  | .error e => Except.error e
  | .ok _ =>
    let authCode := callbackResult.getD ""
    if authCode == "" then Except.error (.valueError authCodeValueErrorMsg)
    else Except.ok authCode

/-- Whether an error is a `TimeoutError` (used to state claims about the
timeout behaviour). -/
def PyError.isTimeout : PyError → Bool
  | .timeoutError _ => true
  | _ => false

/-- State of the fixed loopback callback port (32284): bound by
`OIDCCallbackHTTPServer.__init__`, released by `server_close` (invoked from
`__del__` when `del self._callback_server` drops the last reference). -/
structure CallbackPort where
  portBound : Bool
deriving DecidableEq, Repr

/-- `_get_auth_code` with the port state made explicit.  The `AttributeError`
of the `auth_code` read propagates before `del self._callback_server` is
reached on *both* wait outcomes, so the listener keeps the port bound either
way.  The unreachable tail of the function is kept as written in the source:
on a falsy capture the `ValueError` would also be raised before the `del`;
only the (unreachable) return of a captured URL runs the `del` and drops the
sole reference, releasing the port via `__del__`/`server_close`. -/
def getAuthCodeSt (callbackResult : Option String) (listener : CallbackPort) :
    Except PyError String × CallbackPort :=
  match readCallbackServerAttr "auth_code" with
  | .error e => (Except.error e, listener)
  | .ok _ =>
    let authCode := callbackResult.getD ""
    if authCode == "" then
      (Except.error (.valueError authCodeValueErrorMsg), listener)
    else
      (Except.ok authCode, { portBound := false })

/-- Modelled from the spec (§4.2 CallbackListener): constructing a listener
binds the fixed loopback port and fails with a bind error when the port is
already in use by a previous listener that was not closed. -/
def bindCallbackListener (port : CallbackPort) : Except PyError CallbackPort :=
  if port.portBound then
    Except.error (.connectionError "[Errno 98] Address already in use")
  else Except.ok { portBound := true }

/-! ### OIDC session builder (`OIDCSessionBuilder` in `_session.py`) -/

/-- Observable side effects of the builder methods. -/
inductive Effect where
  | keyringGet (tokenName : String) (apiUrl : String)
  | browserOpen
  | tokenFetch
deriving DecidableEq, Repr

/-- `OIDCSessionBuilder`: the parent factory plus an optional OIDC session
factory (absent when the probe found the server anonymous). -/
structure OIDCBuilder where
  clientFactory : Factory
  sessionFactory : Option Unit
deriving DecidableEq, Repr

/-- `OIDCSessionBuilder.with_token`: without a session factory the original
factory is returned untouched; otherwise the factory's session is replaced by
the OAuth session configured with the refresh token and `_configured` is
set. -/
def OIDCBuilder.withToken (b : OIDCBuilder) (refreshToken : String) :
    Except PyError Factory × List Effect :=
  match b.sessionFactory with
  | none => (Except.ok b.clientFactory, [])
  | some _ =>
    (Except.ok { b.clientFactory with
        sessionAuth := AuthSetting.oauth refreshToken none,
        configured := true }, [])

/-- `OIDCSessionBuilder.with_stored_token`: without a session factory the
original factory is returned before the keyring is consulted; otherwise the
keyring is read (`keyringLookup` is the stored value, if any) and an absent
token raises `ValueError`. -/
def OIDCBuilder.withStoredToken (b : OIDCBuilder) (tokenName : String)
    (keyringLookup : Option String) : Except PyError Factory × List Effect :=
  match b.sessionFactory with
  | none => (Except.ok b.clientFactory, [])
  | some _ =>
    match keyringLookup with
    | none => (Except.error (.valueError "No stored credentials found."),
               [Effect.keyringGet tokenName b.clientFactory.apiUrl])
    | some tok =>
      ((b.withToken tok).1,
       Effect.keyringGet tokenName b.clientFactory.apiUrl :: (b.withToken tok).2)

/-- `OIDCSessionBuilder.authorize`: without a session factory the original
factory is returned without contacting the identity provider; otherwise the
browser is opened, the callback awaited, and the returned code exchanged for
tokens. -/
def OIDCBuilder.authorize (b : OIDCBuilder) (callbackResult : Option String) :
    Except PyError Factory × List Effect :=
  match b.sessionFactory with
  | none => (Except.ok b.clientFactory, [])
  | some _ =>
    match getAuthCode callbackResult with
    | .error e => (Except.error e, [Effect.browserOpen])
    | .ok url =>
      (Except.ok { b.clientFactory with
          sessionAuth := AuthSetting.oauth url none,
          configured := true }, [Effect.browserOpen, Effect.tokenFetch])

/-- `ApiClientFactory.with_oidc`: probe; a 2xx configures the factory and
returns a builder with no session factory; a 401 returns a builder holding a
session factory.  (The construction of `OIDCSessionFactory` on the 401 path
performs further validation modelled separately by `bearerMandatoryCheck`
and `wellKnownMandatoryCheck`.) -/
def withOidc (env : AuthSetting → Response) (oidcEnabled : Bool) (f : Factory) :
    Except PyError (OIDCBuilder × List String) :=
  if !oidcEnabled then
    Except.error (.importError "OpenID Connect features are not enabled. To use them, run `pip install ansys-openapi-common[oidc]`.")
  else
    let initialResponse := env f.sessionAuth
    match handleInitialResponse f initialResponse with
    | .error e => Except.error e
    | .ok (some f1, w) =>
      Except.ok ({ clientFactory := f1, sessionFactory := none }, w)
    | .ok (none, _) =>
      Except.ok ({ clientFactory := f, sessionFactory := some () }, [])

/-! ### Challenge forms for the round-trip property

The three challenge forms of the round-trip property: a bare `Negotiate`, a
`Bearer` challenge with a `realm` parameter, and a `Digest` challenge with
`realm`, `qop`, `nonce` and `opaque` parameters.  Parameter values range over
strings of "good" characters: anything except the double quote, backslash,
newline and carriage return (the characters that interact with the quoted
string grammar). -/

def goodVChar (c : Char) : Bool :=
  !(c == dq || c == '\\' || c == '\n' || c == '\r')

def goodVal (v : String) : Bool :=
  v.data.all goodVChar

/-- A challenge of one of the three round-trip forms. -/
inductive ChForm where
  | negotiate
  | bearer (realm : String)
  | digest (realm qop nonce opq : String)
deriving DecidableEq, Repr

def ChForm.good : ChForm → Bool
  | .negotiate => true
  | .bearer r => goodVal r
  | .digest r q n o => goodVal r && goodVal q && goodVal n && goodVal o

/-- Renders `name="value"`. -/
def renderPair (n v : String) : List Char :=
  n.toList ++ '=' :: dq :: v.toList ++ [dq]

/-- Renders `, name="value"` for every following pair. -/
def renderPairsTail : List (String × String) → List Char
  | [] => []
  | p :: ps => ',' :: ' ' :: renderPair p.1 p.2 ++ renderPairsTail ps

/-- Renders one challenge. -/
def ChForm.render : ChForm → List Char
  | .negotiate => "Negotiate".toList
  | .bearer r => "Bearer".toList ++ ' ' :: renderPair "realm" r
  | .digest r q n o =>
    "Digest".toList ++ ' ' :: renderPair "realm" r
      ++ renderPairsTail [("qop", q), ("nonce", n), ("opaque", o)]

/-- Renders a list of challenges joined with `", "`. -/
def renderForms : List ChForm → List Char
  | [] => []
  | [f] => f.render
  | f :: fs => f.render ++ ',' :: ' ' :: renderForms fs

/-- Lowercased scheme key of a challenge form. -/
def ChForm.key : ChForm → String
  | .negotiate => "negotiate"
  | .bearer _ => "bearer"
  | .digest _ _ _ _ => "digest"

/-- The `credentials` match the parser recovers for one rendered form. -/
def ChForm.credOf : ChForm → Creds
  | .negotiate => .bare "Negotiate".toList
  | .bearer r => .withParams "Bearer".toList [("realm".toList, r.toList)]
  | .digest r q n o =>
    .withParams "Digest".toList
      [("realm".toList, r.toList), ("qop".toList, q.toList),
       ("nonce".toList, n.toList), ("opaque".toList, o.toList)]

/-- The scheme value expected in the final mapping for one form. -/
def ChForm.expectedVal : ChForm → SchemeVal
  | .negotiate => .nul
  | .bearer r => .paramMap [("realm", r)]
  | .digest r q n o =>
    .paramMap [("realm", r), ("qop", q), ("nonce", n), ("opaque", o)]

/-- A well-formed parameter name for the grammar (`Word(alphas, alphanums)`)
that also consists solely of token68 characters (true of all names used by
the round-trip forms). -/
def nameOk (n : List Char) : Bool :=
  match n with
  | [] => false
  | c :: w => isAlphaCh c && w.all isAlnumCh

/-- `t` is the rendered tail of a challenge list: empty, or `", "` followed
by a rendered challenge and another such tail. -/
inductive TailForms : List Char → Prop where
  | nil : TailForms []
  | cons (f : ChForm) (t : List Char) : f.good = true → TailForms t →
      TailForms (',' :: ' ' :: (f.render ++ t))

/-- The separator-renderer for the challenges after the first one. -/
def renderTail : List ChForm → List Char
  | [] => []
  | f :: fs => ',' :: ' ' :: (f.render ++ renderTail fs)

/-- Head-condition: the first character of `cs` (if any) falsifies `p`. -/
def headNot (p : Char → Bool) : List Char → Prop
  | [] => True
  | c :: _ => p c = false

/-- `t` is empty or starts with a comma (true of every rendered tail). -/
def SepTail (t : List Char) : Prop :=
  t = [] ∨ ∃ u, t = ',' :: u

/-! ### Concrete fixtures used by witnesses and counterexamples -/

/-- Whether a result of the authorization-code wait is a `TimeoutError`. -/
def isTimeoutResult : Except PyError String → Bool
  | .error e => e.isTimeout
  | .ok _ => false

def respW (status : Nat) (reason : String) (wwwAuth : Option String) : Response :=
  { status := status, reason := reason, url := "http://my.server/api",
    body := "", wwwAuthenticate := wwwAuth }

def factoryW : Factory := mkApiClientFactory "http://my.server/api" 0

/-- Server for the C6 counterexample: every request (anonymous or Basic) gets
a 401 offering only Basic authentication. -/
def envBasic401 : AuthSetting → Response := fun _ =>
  respW 401 "Unauthorized" (some "Basic realm=\"localhost\"")

/-- Server accepting anonymously (every request gets a 200). -/
def envAnon200 : AuthSetting → Response := fun _ =>
  respW 200 "OK" none

/-- Server offering Basic on the probe and accepting the Basic credentials. -/
def envBasicOk : AuthSetting → Response := fun a =>
  match a with
  | .basicAuth _ _ => respW 200 "OK" none
  | _ => respW 401 "Unauthorized" (some "Basic realm=\"localhost\"")

def resp200W : Response := respW 200 "OK" none

def resp404W : Response := respW 404 "Not Found" none

def resp401W : Response := respW 401 "Unauthorized" (some "Basic realm=\"x\"")

def callbackUrlW : String := "https://localhost:32284/?code=abc123"

/-- The factory produced by `with_credentials` against `envBasicOk`. -/
def f1W : Factory :=
  { factoryW with sessionAuth := AuthSetting.basicAuth "USER" "PASS", configured := true }

/-- A builder holding a session factory (the 401 path of `with_oidc`). -/
def bW : OIDCBuilder :=
  { clientFactory := factoryW, sessionFactory := some () }

/-- The factory produced by `bW.withToken "R"`. -/
def f1TokW : Factory :=
  { factoryW with sessionAuth := AuthSetting.oauth "R" none, configured := true }

end OpenapiCommon

deriving instance DecidableEq for Except

namespace OpenapiCommon

/-! ### Helper lemmas -/

theorem isPrefixOf_self_append (b c : List Char) : b.isPrefixOf (b ++ c) = true := by
  induction b with
  | nil => cases c <;> rfl
  | cons x xs ih => simp [List.isPrefixOf, ih]

theorem infixAt_of_pref (b h : List Char) (hp : b.isPrefixOf h = true) :
    infixAt b h = true := by
  cases h with
  | nil =>
    cases b with
    | nil => rfl
    | cons x xs => simp [List.isPrefixOf] at hp
  | cons y ys => simp [infixAt, hp]

theorem infixAt_append (a b c : List Char) : infixAt b (a ++ (b ++ c)) = true := by
  induction a with
  | nil => exact infixAt_of_pref _ _ (isPrefixOf_self_append b c)
  | cons x xs ih => simp [infixAt, ih]

/-- `b` occurs in `hay` whenever `hay` splits as `a ++ b ++ c`. -/
theorem strContains_of_parts (hay b : String) (a c : List Char)
    (h : hay.toList = a ++ (b.toList ++ c)) : strContains hay b = true := by
  unfold strContains
  rw [h]
  exact infixAt_append a _ c

/-! ### C5 and C4: the parser on concrete headers -/

/-- C5: `parse_authenticate` on `"Negotiate abcdef"`, `"Negotiate abcdef="`
and `"Negotiate abcdef=="` returns a single-entry mapping keyed (lowercased,
hence case-insensitively retrievable) by `negotiate`, whose value is the
opaque token68 credential including trailing `=` padding — not a parameter
map and not `None`; the final conjunct exhibits the case-insensitive lookup
of the entry. -/
theorem c5_negotiate_token_forms :
    parseAuthenticate "Negotiate abcdef" = Except.ok [("negotiate", SchemeVal.token "abcdef")] ∧
    parseAuthenticate "Negotiate abcdef=" = Except.ok [("negotiate", SchemeVal.token "abcdef=")] ∧
    parseAuthenticate "Negotiate abcdef==" = Except.ok [("negotiate", SchemeVal.token "abcdef==")] ∧
    ciodGet [("negotiate", SchemeVal.token "abcdef")] "Negotiate" = some (SchemeVal.token "abcdef") := by
  refine ⟨by decide, by decide, by decide, by decide⟩

/-- C4: malformed headers — the invalid token character input
`Bearer cost=(£35)`, an unterminated quoted string, and a stray `=` — all
fail with the parse error, and every failure of `parse_authenticate` carries
a message containing `"Failed to parse value"` (no partial mapping is
returned). -/
theorem c4_malformed_header_failure :
    parseAuthenticate "Bearer cost=(£35)" = Except.error "Failed to parse value" ∧
    parseAuthenticate "Bearer realm=\"x" = Except.error "Failed to parse value" ∧
    parseAuthenticate "=" = Except.error "Failed to parse value" ∧
    ∀ s m, parseAuthenticate s = Except.error m →
      strContains m "Failed to parse value" = true := by
  refine ⟨by decide, by decide, by decide, ?_⟩
  intro s m h
  unfold parseAuthenticate parseHeader at h
  split at h
  · injection h with h1
    rw [← h1]
    decide
  · split at h
    · exact absurd h (by simp)
    · injection h with h1
      rw [← h1]
      decide

/-- C4 witness: the theorem applied at the stray-`=` input. -/
theorem c4_malformed_header_failure_witness :
    strContains "Failed to parse value" "Failed to parse value" = true :=
  c4_malformed_header_failure.2.2.2 "=" "Failed to parse value" (by decide)

end OpenapiCommon

namespace OpenapiCommon

/-! ### C1: handling of the initial unauthenticated probe -/

theorem apiConnectionMessage_contains_status (r : Response) :
    strContains (apiConnectionMessage r) (toString r.status) = true := by
  unfold apiConnectionMessage
  by_cases hb : (r.body == "") = true
  · simp only [hb, if_true]
    exact strContains_of_parts _ _
      ("Request url " ++ apos ++ r.url ++ apos ++ " failed with reason ").toList
      ((": " ++ r.reason ++ ".")).toList
      (by simp [String.toList, String.data_append, List.append_assoc])
  · simp only [Bool.not_eq_true] at hb
    simp only [hb, Bool.false_eq_true, if_false]
    exact strContains_of_parts _ _
      ("Request url " ++ apos ++ r.url ++ apos ++ " failed with reason ").toList
      (((": " ++ r.reason ++ ".")).toList ++ ("\n".toList ++ r.body.toList))
      (by simp [String.toList, String.data_append, List.append_assoc])

theorem apiConnectionMessage_contains_reason (r : Response) :
    strContains (apiConnectionMessage r) r.reason = true := by
  unfold apiConnectionMessage
  by_cases hb : (r.body == "") = true
  · simp only [hb, if_true]
    exact strContains_of_parts _ _
      ("Request url " ++ apos ++ r.url ++ apos ++ " failed with reason "
        ++ toString r.status ++ ": ").toList
      (".").toList
      (by simp [String.toList, String.data_append, List.append_assoc])
  · simp only [Bool.not_eq_true] at hb
    simp only [hb, Bool.false_eq_true, if_false]
    exact strContains_of_parts _ _
      ("Request url " ++ apos ++ r.url ++ apos ++ " failed with reason "
        ++ toString r.status ++ ": ").toList
      ((".").toList ++ ("\n".toList ++ r.body.toList))
      (by simp [String.toList, String.data_append, List.append_assoc])

/-- C1: for the initial unauthenticated GET probe, a 2xx response configures
the factory (negotiation succeeds anonymously) and issues the non-fatal
`AuthenticationWarning` whose message contains "anonymous" (in particular
whenever the caller had supplied credentials); a response that is neither 2xx
nor 401 raises `ApiConnectionException` carrying the response — whose message
contains the status code and the reason phrase; a 401 raises nothing and
returns `None` so negotiation proceeds to challenge parsing. -/
theorem c1_initial_probe_handling (f : Factory) (resp : Response) :
    (resp.is2xx = true →
      handleInitialResponse f resp =
        Except.ok (some { f with configured := true }, [anonymousWarning]) ∧
      strContains anonymousWarning "anonymous" = true) ∧
    (resp.is2xx = false → resp.status ≠ 401 →
      handleInitialResponse f resp = Except.error (.apiConnection resp) ∧
      strContains (apiConnectionMessage resp) (toString resp.status) = true ∧
      strContains (apiConnectionMessage resp) resp.reason = true) ∧
    (resp.status = 401 → handleInitialResponse f resp = Except.ok (none, [])) := by
  refine ⟨?_, ?_, ?_⟩
  · intro h2
    exact ⟨by simp [handleInitialResponse, h2], by decide⟩
  · intro h2 h401
    refine ⟨by simp [handleInitialResponse, h2, h401], ?_, ?_⟩
    · exact apiConnectionMessage_contains_status resp
    · exact apiConnectionMessage_contains_reason resp
  · intro h401
    have h2 : resp.is2xx = false := by simp [Response.is2xx, h401]
    simp [handleInitialResponse, h2, h401]

/-- C1 witness: the theorem applied at a 200, a 404 and a 401 response. -/
theorem c1_initial_probe_handling_witness :
    handleInitialResponse factoryW resp200W =
      Except.ok (some { factoryW with configured := true }, [anonymousWarning]) ∧
    handleInitialResponse factoryW resp404W = Except.error (.apiConnection resp404W) ∧
    handleInitialResponse factoryW resp401W = Except.ok (none, []) :=
  ⟨((c1_initial_probe_handling factoryW resp200W).1 (by decide)).1,
   ((c1_initial_probe_handling factoryW resp404W).2.1 (by decide) (by decide)).1,
   (c1_initial_probe_handling factoryW resp401W).2.2 (by decide)⟩

/-! ### C2: missing mandatory OIDC fields -/

/-- C2: whenever mandatory-field validation fails during OIDC setup — for the
`Bearer` challenge parameters (mandatory `redirecturi`, `authority`,
`clientid`) or for the well-known configuration (mandatory
`authorization_endpoint`, `token_endpoint`) — a `ConnectionError` is raised
whose message contains exactly the missing field names: every missing field
name occurs in the message and no mandatory field name that was present
does. -/
theorem c2_missing_field_enumeration (ps cfg : List (String × String)) :
    ((missingHeaders (ps.map (fun p => p.1)) mandatoryBearerHeaders = [] →
        bearerMandatoryCheck (some ps) = Except.ok ps) ∧
     (missingHeaders (ps.map (fun p => p.1)) mandatoryBearerHeaders ≠ [] →
        ∃ msg, bearerMandatoryCheck (some ps) = Except.error (.connectionError msg) ∧
          ∀ h ∈ mandatoryBearerHeaders,
            strContains msg h =
              (missingHeaders (ps.map (fun p => p.1)) mandatoryBearerHeaders).contains h)) ∧
    ((missingHeaders (cfg.map (fun p => p.1)) mandatoryWellKnownParameters = [] →
        wellKnownMandatoryCheck cfg = Except.ok cfg) ∧
     (missingHeaders (cfg.map (fun p => p.1)) mandatoryWellKnownParameters ≠ [] →
        ∃ msg, wellKnownMandatoryCheck cfg = Except.error (.connectionError msg) ∧
          ∀ h ∈ mandatoryWellKnownParameters,
            strContains msg h =
              (missingHeaders (cfg.map (fun p => p.1)) mandatoryWellKnownParameters).contains h)) := by
  constructor
  · cases h1 : (ps.map (fun p => p.1)).any (fun k => pyLower k == "redirecturi") <;>
    cases h2 : (ps.map (fun p => p.1)).any (fun k => pyLower k == "authority") <;>
    cases h3 : (ps.map (fun p => p.1)).any (fun k => pyLower k == "clientid") <;>
    simp only [missingHeaders, mandatoryBearerHeaders, List.filter_cons, List.filter_nil,
      h1, h2, h3, Bool.not_true, Bool.not_false, if_true, if_false,
      bearerMandatoryCheck, Option.getD] <;>
    refine ⟨?_, ?_⟩ <;> intro hx <;>
    first
      | rfl
      | exact absurd hx (by decide)
      | exact absurd rfl hx
      | exact ⟨_, rfl, by decide⟩
  · cases h1 : (cfg.map (fun p => p.1)).any (fun k => pyLower k == "authorization_endpoint") <;>
    cases h2 : (cfg.map (fun p => p.1)).any (fun k => pyLower k == "token_endpoint") <;>
    simp only [missingHeaders, mandatoryWellKnownParameters, List.filter_cons, List.filter_nil,
      h1, h2, Bool.not_true, Bool.not_false, if_true, if_false,
      wellKnownMandatoryCheck] <;>
    refine ⟨?_, ?_⟩ <;> intro hx <;>
    first
      | rfl
      | exact absurd hx (by decide)
      | exact absurd rfl hx
      | exact ⟨_, rfl, by decide⟩

/-- C2 witness: a `Bearer` challenge missing only `redirecturi`, and a
well-known configuration missing both endpoints. -/
theorem c2_missing_field_enumeration_witness :
    (∃ msg,
      bearerMandatoryCheck (some [("authority", "https://idp.example.com/"), ("clientid", "abc123")]) =
        Except.error (.connectionError msg) ∧
      ∀ h ∈ mandatoryBearerHeaders,
        strContains msg h =
          (missingHeaders
            ([("authority", "https://idp.example.com/"), ("clientid", "abc123")].map (fun p => p.1))
            mandatoryBearerHeaders).contains h) ∧
    (∃ msg,
      wellKnownMandatoryCheck [] = Except.error (.connectionError msg) ∧
      ∀ h ∈ mandatoryWellKnownParameters,
        strContains msg h =
          (missingHeaders (([] : List (String × String)).map (fun p => p.1))
            mandatoryWellKnownParameters).contains h) :=
  ⟨(c2_missing_field_enumeration
      [("authority", "https://idp.example.com/"), ("clientid", "abc123")] []).1.2 (by decide),
   (c2_missing_field_enumeration
      [("authority", "https://idp.example.com/"), ("clientid", "abc123")] []).2.2 (by decide)⟩

end OpenapiCommon

namespace OpenapiCommon

/-! ### C6: scheme selection in `with_credentials` -/

/-- C6 (amended): after a 401 probe, scheme selection is deterministic — the
NTLM attempt happens exactly when the challenge set offers `Negotiate` or
`NTLM` (case-insensitively) and the platform is Windows; otherwise `Basic`
is attempted when offered; when neither scheme matches, the call fails with
`ConnectionError("Unable to connect with credentials provided.")`.  When the
re-validation request for the selected scheme returns a non-2xx status the
call fails with `ApiConnectionException` carrying that response (not with the
`ConnectionError`), and no further scheme is attempted. -/
theorem c6_scheme_selection_and_failure (env : AuthSetting → Response) (pw : Bool)
    (u p : String) (d : Option String) (f : Factory)
    (headers : List (String × SchemeVal))
    (h401 : (env f.sessionAuth).status = 401)
    (hh : getAuthenticateHeader (env f.sessionAuth) = Except.ok headers) :
    (((ciodContains headers "Negotiate" || ciodContains headers "NTLM") && pw) = true →
      withCredentials env pw u p d f =
        (if (env (AuthSetting.ntlmAuth (credUser u d) p)).is2xx then
          Except.ok ({ f with sessionAuth := AuthSetting.ntlmAuth (credUser u d) p, configured := true }, [])
        else Except.error (.apiConnection (env (AuthSetting.ntlmAuth (credUser u d) p))))) ∧
    (((ciodContains headers "Negotiate" || ciodContains headers "NTLM") && pw) = false →
      ciodContains headers "Basic" = true →
      withCredentials env pw u p d f =
        (if (env (AuthSetting.basicAuth (credUser u d) p)).is2xx then
          Except.ok ({ f with sessionAuth := AuthSetting.basicAuth (credUser u d) p, configured := true }, [])
        else Except.error (.apiConnection (env (AuthSetting.basicAuth (credUser u d) p))))) ∧
    (((ciodContains headers "Negotiate" || ciodContains headers "NTLM") && pw) = false →
      ciodContains headers "Basic" = false →
      withCredentials env pw u p d f =
        Except.error (.connectionError "Unable to connect with credentials provided.")) := by
  have his : (env f.sessionAuth).is2xx = false := by
    simp [Response.is2xx, h401]
  have hinit : handleInitialResponse f (env f.sessionAuth) = Except.ok (none, []) := by
    simp [handleInitialResponse, his, h401]
  refine ⟨?_, ?_, ?_⟩
  · intro hN
    simp only [withCredentials, hinit]
    rw [hh]
    dsimp only
    rw [hN, if_pos rfl]
    simp only [testConnection]
    cases hT : (env (AuthSetting.ntlmAuth (credUser u d) p)).is2xx with
    | true => rfl
    | false => rfl
  · intro hN hB
    simp only [withCredentials, hinit]
    rw [hh]
    dsimp only
    rw [hN, if_neg (by simp), hB, if_pos rfl]
    simp only [testConnection]
    cases hT : (env (AuthSetting.basicAuth (credUser u d) p)).is2xx with
    | true => rfl
    | false => rfl
  · intro hN hB
    simp only [withCredentials, hinit]
    rw [hh]
    dsimp only
    rw [hN, if_neg (by simp), hB, if_neg (by simp)]

/-- C6 witness: against a server offering only `Basic` and accepting the
Basic credentials, `with_credentials` configures Basic authentication. -/
theorem c6_scheme_selection_witness :
    withCredentials envBasicOk false "USER" "PASS" none factoryW =
      (if (envBasicOk (AuthSetting.basicAuth (credUser "USER" none) "PASS")).is2xx then
        Except.ok ({ factoryW with sessionAuth := AuthSetting.basicAuth (credUser "USER" none) "PASS", configured := true }, [])
      else Except.error (.apiConnection (envBasicOk (AuthSetting.basicAuth (credUser "USER" none) "PASS")))) :=
  (c6_scheme_selection_and_failure envBasicOk false "USER" "PASS" none factoryW
    [("basic", SchemeVal.paramMap [("realm", "localhost")])]
    (by decide) (by decide)).2.1 (by decide) (by decide)

/-- C6 counterexample: the claim as stated is false — when the `Basic`
re-validation still returns a 401, the code raises `ApiConnectionException`
(carrying the 401 response), not
`ConnectionError("unable to connect with credentials")`. -/
theorem c6_revalidation_counterexample :
    withCredentials envBasic401 false "USER" "PASS" none factoryW =
      Except.error (.apiConnection (respW 401 "Unauthorized" (some "Basic realm=\"localhost\""))) ∧
    withCredentials envBasic401 false "USER" "PASS" none factoryW ≠
      Except.error (.connectionError "Unable to connect with credentials provided.") := by
  exact ⟨by decide, by decide⟩

/-! ### C7: outcome of the callback wait -/

/-- C7 (amended): the callback wait never surfaces a `TimeoutError` — no
such type exists in the source — and as staged it cannot even surface the
`ValueError` of the function's own (dead) `raise`: on every wait outcome,
timed out or a captured callback URL alike, `_get_auth_code` fails with
`AttributeError` at the `self._callback_server.auth_code` read, because
`OIDCCallbackHTTPServer` defines only the `_auth_code` queue and the
`get_auth_code` coroutine. -/
theorem c7_callback_wait_outcome (cb : Option String) :
    getAuthCode cb = Except.error (.attributeError authCodeAttrErrorMsg) ∧
    isTimeoutResult (getAuthCode cb) = false ∧
    getAuthCode cb ≠ Except.error (.valueError authCodeValueErrorMsg) := by
  refine ⟨rfl, rfl, fun h => ?_⟩
  have h2 : (Except.error (.attributeError authCodeAttrErrorMsg) : Except PyError String)
      = Except.error (.valueError authCodeValueErrorMsg) := h
  exact absurd h2 (by decide)

/-- C7 witness: the theorem applied at a timed-out wait and at a captured
callback URL — both fail with the same `AttributeError`. -/
theorem c7_callback_wait_outcome_witness :
    getAuthCode none = Except.error (.attributeError authCodeAttrErrorMsg) ∧
    getAuthCode (some callbackUrlW) = Except.error (.attributeError authCodeAttrErrorMsg) :=
  ⟨(c7_callback_wait_outcome none).1, (c7_callback_wait_outcome (some callbackUrlW)).1⟩

/-- C7 counterexample: at the timed-out wait the operation fails with an
`AttributeError` (the `auth_code` read), not with a `TimeoutError`, refuting
the claim as stated. -/
theorem c7_timeout_not_timeout_error :
    getAuthCode none = Except.error (.attributeError authCodeAttrErrorMsg) ∧
    isTimeoutResult (getAuthCode none) = false := by
  exact ⟨by decide, by decide⟩

/-! ### C8: release of the callback port -/

/-- C8: evaluation of `_get_auth_code` on both wait outcomes with the port
state explicit.  The claim (with the spec's cancellation requirement and the
source's own comment on the `del`) demands that port 32284 be released
before control returns on both outcomes; in the source the `auth_code`
attribute read raises `AttributeError` before `del self._callback_server` on
*both* paths (on a timeout even the fallback `raise ValueError` would
precede the `del`), so the listener keeps the port bound on every outcome
and binding a second listener fails with a bind conflict. -/
theorem c8_port_release_behaviour :
    (getAuthCodeSt none { portBound := true }).1 =
      Except.error (.attributeError authCodeAttrErrorMsg) ∧
    (getAuthCodeSt none { portBound := true }).2.portBound = true ∧
    bindCallbackListener (getAuthCodeSt none { portBound := true }).2 =
      Except.error (.connectionError "[Errno 98] Address already in use") ∧
    (getAuthCodeSt (some callbackUrlW) { portBound := true }).1 =
      Except.error (.attributeError authCodeAttrErrorMsg) ∧
    (getAuthCodeSt (some callbackUrlW) { portBound := true }).2.portBound = true ∧
    bindCallbackListener (getAuthCodeSt (some callbackUrlW) { portBound := true }).2 =
      Except.error (.connectionError "[Errno 98] Address already in use") := by
  refine ⟨by decide, by decide, by decide, by decide, by decide, by decide⟩

end OpenapiCommon

namespace OpenapiCommon

/-! ### C9: the `_configured` flag -/

theorem handleInitialResponse_some (f : Factory) (r : Response) (f1 : Factory) (w : List String)
    (h : handleInitialResponse f r = Except.ok (some f1, w)) : f1.configured = true := by
  unfold handleInitialResponse at h
  split at h
  · simp only [Except.ok.injEq, Prod.mk.injEq, Option.some.injEq] at h
    rw [← h.1]
  · split at h
    · exact absurd h (by simp)
    · simp at h

theorem withAnonymous_ok_configured (env : AuthSetting → Response) (f f1 : Factory)
    (w : List String) (h : withAnonymous env f = Except.ok (f1, w)) :
    f1.configured = true := by
  simp only [withAnonymous, testConnection] at h
  cases hb : (env f.sessionAuth).is2xx with
  | true =>
    simp only [hb, if_true] at h
    simp only [Except.ok.injEq, Prod.mk.injEq] at h
    rw [← h.1]
  | false =>
    simp [hb] at h

theorem withCredentials_ok_configured (env : AuthSetting → Response) (pw : Bool)
    (u p : String) (d : Option String) (f f1 : Factory) (w : List String)
    (h : withCredentials env pw u p d f = Except.ok (f1, w)) : f1.configured = true := by
  simp only [withCredentials] at h
  cases hI : handleInitialResponse f (env f.sessionAuth) with
  | error e => rw [hI] at h; exact absurd h (by simp)
  | ok pr =>
    rw [hI] at h
    obtain ⟨of, w2⟩ := pr
    cases of with
    | some f2 =>
      simp only [Except.ok.injEq, Prod.mk.injEq] at h
      have hc := handleInitialResponse_some f _ f2 w2 hI
      rw [← h.1]
      exact hc
    | none =>
      cases hG : getAuthenticateHeader (env f.sessionAuth) with
      | error e => rw [hG] at h; exact absurd h (by simp)
      | ok headers =>
        rw [hG] at h
        dsimp only at h
        cases hN : (ciodContains headers "Negotiate" || ciodContains headers "NTLM") && pw with
        | true =>
          rw [hN] at h
          rw [if_pos rfl] at h
          cases hT : testConnection env
              { f with sessionAuth := AuthSetting.ntlmAuth (credUser u d) p } with
          | error e => rw [hT] at h; exact absurd h (by simp)
          | ok v =>
            rw [hT] at h
            simp only [Except.ok.injEq, Prod.mk.injEq] at h
            rw [← h.1]
        | false =>
          rw [hN] at h
          rw [if_neg (by simp)] at h
          cases hB : ciodContains headers "Basic" with
          | true =>
            rw [hB] at h
            rw [if_pos rfl] at h
            cases hT : testConnection env
                { f with sessionAuth := AuthSetting.basicAuth (credUser u d) p } with
            | error e => rw [hT] at h; exact absurd h (by simp)
            | ok v =>
              rw [hT] at h
              simp only [Except.ok.injEq, Prod.mk.injEq] at h
              rw [← h.1]
          | false =>
            rw [hB] at h
            rw [if_neg (by simp)] at h
            exact absurd h (by simp)

theorem withAutologon_ok_configured (env : AuthSetting → Response) (pw lk : Bool)
    (f f1 : Factory) (w : List String)
    (h : withAutologon env pw lk f = Except.ok (f1, w)) : f1.configured = true := by
  simp only [withAutologon] at h
  cases hK : !(pw || lk) with
  | true => rw [hK] at h; rw [if_pos rfl] at h; exact absurd h (by simp)
  | false =>
    rw [hK] at h
    rw [if_neg (by simp)] at h
    cases hI : handleInitialResponse f (env f.sessionAuth) with
    | error e => rw [hI] at h; exact absurd h (by simp)
    | ok pr =>
      rw [hI] at h
      obtain ⟨of, w2⟩ := pr
      cases of with
      | some f2 =>
        simp only [Except.ok.injEq, Prod.mk.injEq] at h
        have hc := handleInitialResponse_some f _ f2 w2 hI
        rw [← h.1]
        exact hc
      | none =>
        cases hG : getAuthenticateHeader (env f.sessionAuth) with
        | error e => rw [hG] at h; exact absurd h (by simp)
        | ok headers =>
          rw [hG] at h
          dsimp only at h
          cases hB : ciodContains headers "Negotiate" with
          | true =>
            rw [hB] at h
            rw [if_pos rfl] at h
            cases hT : testConnection env { f with sessionAuth := AuthSetting.negotiateAuth } with
            | error e => rw [hT] at h; exact absurd h (by simp)
            | ok v =>
              rw [hT] at h
              simp only [Except.ok.injEq, Prod.mk.injEq] at h
              rw [← h.1]
          | false =>
            rw [hB] at h
            rw [if_neg (by simp)] at h
            exact absurd h (by simp)

/-- C9: the `_configured` flag is `False` on construction; `connect` raises
`ValueError("No authentication configured yet.")` exactly when the flag is
`False` and otherwise returns the `ApiClient` built from the factory's
session, API URL and session configuration; and the flag is set to `True`
only by the successful completion of an authentication step —
`with_anonymous`, `with_credentials`, `with_autologon`, or an OIDC builder
method operating on a real session factory. -/
theorem c9_configured_flag_invariant (url : String) (cfgId : Nat)
    (env : AuthSetting → Response) (pw lk : Bool) (u p : String) (d : Option String)
    (f f1 : Factory) (w : List String) (b : OIDCBuilder) (tok tn : String)
    (lookup : Option String) (cb : Option String) (effs : List Effect) :
    (mkApiClientFactory url cfgId).configured = false ∧
    (f.configured = false →
      connect f = Except.error (.valueError "No authentication configured yet.")) ∧
    (f.configured = true →
      connect f = Except.ok { sessionAuth := f.sessionAuth, apiUrl := f.apiUrl,
                              sessionConfig := f.sessionConfig }) ∧
    (withAnonymous env f = Except.ok (f1, w) → f1.configured = true) ∧
    (withCredentials env pw u p d f = Except.ok (f1, w) → f1.configured = true) ∧
    (withAutologon env pw lk f = Except.ok (f1, w) → f1.configured = true) ∧
    (b.sessionFactory = some () → b.withToken tok = (Except.ok f1, effs) →
      f1.configured = true) ∧
    (b.sessionFactory = some () → b.withStoredToken tn lookup = (Except.ok f1, effs) →
      f1.configured = true) ∧
    (b.sessionFactory = some () → b.authorize cb = (Except.ok f1, effs) →
      f1.configured = true) := by
  refine ⟨rfl, ?_, ?_, withAnonymous_ok_configured env f f1 w,
    withCredentials_ok_configured env pw u p d f f1 w,
    withAutologon_ok_configured env pw lk f f1 w, ?_, ?_, ?_⟩
  · intro h
    simp [connect, h]
  · intro h
    simp [connect, h]
  · intro hs h
    simp only [OIDCBuilder.withToken, hs] at h
    simp only [Prod.mk.injEq, Except.ok.injEq] at h
    rw [← h.1]
  · intro hs h
    simp only [OIDCBuilder.withStoredToken, hs] at h
    cases lookup with
    | none => simp at h
    | some t =>
      simp only [OIDCBuilder.withToken, hs] at h
      simp only [Prod.mk.injEq, Except.ok.injEq] at h
      rw [← h.1]
  · intro hs h
    simp only [OIDCBuilder.authorize, hs] at h
    cases hA : getAuthCode cb with
    | error e => rw [hA] at h; simp at h
    | ok urlv =>
      rw [hA] at h
      dsimp only at h
      simp only [Prod.mk.injEq, Except.ok.injEq] at h
      rw [← h.1]

/-- C9 witness: the fresh factory is unconfigured and `connect` refuses it;
a successful `with_credentials` and a successful builder `with_token` both
yield configured factories. -/
theorem c9_configured_flag_invariant_witness :
    (mkApiClientFactory "http://my.server/api" 0).configured = false ∧
    connect factoryW = Except.error (.valueError "No authentication configured yet.") ∧
    f1W.configured = true ∧
    f1TokW.configured = true :=
  ⟨(c9_configured_flag_invariant "http://my.server/api" 0 envBasicOk false false "USER" "PASS"
      none factoryW f1W [] bW "R" "tokname" (some "R") (some callbackUrlW) []).1,
   (c9_configured_flag_invariant "http://my.server/api" 0 envBasicOk false false "USER" "PASS"
      none factoryW f1W [] bW "R" "tokname" (some "R") (some callbackUrlW) []).2.1 rfl,
   (c9_configured_flag_invariant "http://my.server/api" 0 envBasicOk false false "USER" "PASS"
      none factoryW f1W [] bW "R" "tokname" (some "R") (some callbackUrlW) []).2.2.2.2.1 (by decide),
   (c9_configured_flag_invariant "http://my.server/api" 0 envBasicOk false false "USER" "PASS"
      none factoryW f1TokW [] bW "R" "tokname" (some "R") (some callbackUrlW) []).2.2.2.2.2.2.1
      rfl (by decide)⟩

/-! ### C10: the anonymous `with_oidc` path -/

/-- C10: when the probe issued by `with_oidc` returns 2xx, the returned
builder holds no session factory, its parent factory is already configured,
and each builder method — `with_stored_token` (for any keyring state,
including an empty keyring, without raising `ValueError`), `with_token` and
`authorize` — returns the original factory unchanged with no side effects
(no keyring consultation, no identity-provider contact, no session
replacement). -/
theorem c10_anonymous_oidc_builder (env : AuthSetting → Response) (f : Factory)
    (h2 : (env f.sessionAuth).is2xx = true) :
    ∃ b : OIDCBuilder,
      withOidc env true f = Except.ok (b, [anonymousWarning]) ∧
      b.sessionFactory = none ∧
      b.clientFactory = { f with configured := true } ∧
      (∀ tn lookup, b.withStoredToken tn lookup = (Except.ok b.clientFactory, [])) ∧
      (∀ tok, b.withToken tok = (Except.ok b.clientFactory, [])) ∧
      (∀ cb, b.authorize cb = (Except.ok b.clientFactory, [])) := by
  refine ⟨{ clientFactory := { f with configured := true }, sessionFactory := none },
    ?_, rfl, rfl, fun tn lookup => rfl, fun tok => rfl, fun cb => rfl⟩
  simp [withOidc, handleInitialResponse, h2]

/-- C10 witness: the theorem applied against an anonymous-accepting server. -/
theorem c10_anonymous_oidc_builder_witness :
    ∃ b : OIDCBuilder,
      withOidc envAnon200 true factoryW = Except.ok (b, [anonymousWarning]) ∧
      b.sessionFactory = none ∧
      b.clientFactory = { factoryW with configured := true } ∧
      (∀ tn lookup, b.withStoredToken tn lookup = (Except.ok b.clientFactory, [])) ∧
      (∀ tok, b.withToken tok = (Except.ok b.clientFactory, [])) ∧
      (∀ cb, b.authorize cb = (Except.ok b.clientFactory, [])) :=
  c10_anonymous_oidc_builder envAnon200 factoryW (by decide)

end OpenapiCommon

namespace OpenapiCommon

theorem not_ws_of_tokenChar (c : Char) (h : tokenChar c = true) : wsChar c = false := by
  cases hw : wsChar c
  · rfl
  · exfalso
    simp only [wsChar, Bool.or_eq_true, beq_iff_eq] at hw
    rcases hw with ((h1 | h1) | h1) | h1 <;> subst h1 <;> exact absurd h (by decide)

theorem not_ws_of_alpha (c : Char) (h : isAlphaCh c = true) : wsChar c = false := by
  cases hw : wsChar c
  · rfl
  · exfalso
    simp only [wsChar, Bool.or_eq_true, beq_iff_eq] at hw
    rcases hw with ((h1 | h1) | h1) | h1 <;> subst h1 <;> exact absurd h (by decide)

theorem skipWs_nows (cs : List Char) (h : headNot wsChar cs) : skipWs cs = cs := by
  cases cs with
  | nil => rfl
  | cons c r =>
    unfold skipWs
    rw [List.dropWhile_cons]
    simp only [headNot] at h
    rw [h]
    simp

theorem skipWs_ws (c : Char) (cs : List Char) (h : wsChar c = true) :
    skipWs (c :: cs) = skipWs cs := by
  unfold skipWs
  rw [List.dropWhile_cons, h]
  simp

theorem takeWhile_append_of_all (p : Char → Bool) (w rest : List Char)
    (hw : w.all p = true) (hr : headNot p rest) :
    (w ++ rest).takeWhile p = w := by
  induction w with
  | nil =>
    cases rest with
    | nil => rfl
    | cons r rs =>
      simp only [headNot] at hr
      simp [List.takeWhile_cons, hr]
  | cons c cs ih =>
    simp only [List.all_cons, Bool.and_eq_true] at hw
    simp [List.takeWhile_cons, hw.1, ih hw.2]

theorem wordP_eq (p : Char → Bool) (w rest : List Char)
    (hne : w ≠ []) (hw : w.all p = true) (hr : headNot p rest)
    (hws : headNot wsChar (w ++ rest)) :
    wordP p (w ++ rest) = some (w, rest) := by
  simp only [wordP]
  rw [skipWs_nows _ hws, takeWhile_append_of_all p w rest hw hr]
  rw [if_neg (by simpa using hne)]
  rw [List.drop_left]

theorem wordInitP_eq (init body : Char → Bool) (c : Char) (w rest : List Char)
    (hc : init c = true) (hcw : wsChar c = false)
    (hw : w.all body = true) (hr : headNot body rest) :
    wordInitP init body (c :: (w ++ rest)) = some (c :: w, rest) := by
  simp only [wordInitP]
  rw [skipWs_nows _ (by exact hcw)]
  dsimp only
  rw [if_pos hc]
  rw [takeWhile_append_of_all body w rest hw hr, List.drop_left]

theorem litP_eq (lit rest : List Char) (hws : headNot wsChar (lit ++ rest)) :
    litP lit (lit ++ rest) = some rest := by
  simp only [litP]
  rw [skipWs_nows _ hws, if_pos (isPrefixOf_self_append lit rest), List.drop_left]

theorem litP_ws (l : List Char) (c : Char) (cs : List Char) (h : wsChar c = true) :
    litP l (c :: cs) = litP l cs := by
  simp only [litP]
  rw [skipWs_ws c cs h]

theorem litP_none_head (l c : Char) (u : List Char)
    (hws : wsChar c = false) (hne : (l == c) = false) : litP [l] (c :: u) = none := by
  simp only [litP]
  rw [skipWs_nows _ (by exact hws)]
  rw [if_neg (by simp [List.isPrefixOf, hne])]

theorem litP_nil_none (l : Char) : litP [l] [] = none := rfl

theorem token68P_ws (c : Char) (cs : List Char) (h : wsChar c = true) :
    token68P (c :: cs) = token68P cs := by
  simp only [token68P]
  rw [skipWs_ws c cs h]

theorem token68P_shape (nm u : List Char)
    (hne : nm ≠ []) (hnm : nm.all token68Char = true)
    (hws : headNot wsChar (nm ++ '=' :: dq :: u)) :
    token68P (nm ++ '=' :: dq :: u) = some (nm ++ ['='], dq :: u) := by
  simp only [token68P]
  rw [skipWs_nows _ hws]
  rw [takeWhile_append_of_all token68Char nm _ hnm (by exact (by decide : token68Char '=' = false))]
  rw [if_neg (by simpa using hne)]
  rw [List.drop_left]
  rw [List.takeWhile_cons, if_pos (by simp)]
  rw [List.takeWhile_cons, if_neg (by decide)]
  rfl

theorem token68P_none_sep (t : List Char) (ht : SepTail t) : token68P t = none := by
  rcases ht with h | ⟨u, h⟩ <;> subst h
  · rfl
  · simp only [token68P]
    rw [skipWs_nows _ (by exact (by decide : wsChar ',' = false))]
    have h1 : List.takeWhile token68Char (',' :: u) = [] := by
      rw [List.takeWhile_cons, if_neg (by decide)]
    rw [h1]
    rfl

theorem munchF_goodV (v rest : List Char) (fuel : Nat)
    (hf : v.length < fuel) (hv : v.all goodVChar = true)
    (hr : headNot (fun c => c == dq) rest) :
    munchF dq fuel (v ++ dq :: rest) = (v, dq :: rest) := by
  induction v generalizing fuel with
  | nil =>
    cases fuel with
    | zero => exact absurd hf (by simp)
    | succ n =>
      simp only [List.nil_append, munchF]
      rw [if_pos (by simp)]
      cases rest with
      | nil => rfl
      | cons c2 cs2 =>
        simp only [headNot] at hr
        dsimp only
        rw [if_neg (by simp only [hr]; exact Bool.false_ne_true)]
  | cons c cs ih =>
    cases fuel with
    | zero => simp at hf
    | succ n =>
      simp only [List.all_cons, Bool.and_eq_true] at hv
      have hc := hv.1
      simp only [goodVChar, Bool.not_eq_eq_eq_not, Bool.not_true, Bool.or_eq_false_iff] at hc
      obtain ⟨⟨⟨hcd, hcb⟩, hcn⟩, hcr⟩ := hc
      simp only [List.cons_append, munchF]
      rw [if_neg (by simp only [hcd]; exact Bool.false_ne_true)]
      rw [if_neg (by simp [hcn, hcr])]
      rw [if_neg (by simp only [hcb]; exact Bool.false_ne_true)]
      have hrec := ih n (by simp only [List.length_cons] at hf; omega) hv.2
      simp only [List.append_eq]
      rw [hrec]

end OpenapiCommon

namespace OpenapiCommon

theorem quotedP_eq (v rest : List Char)
    (hv : v.all goodVChar = true) (hr : headNot (fun c => c == dq) rest) :
    quotedP (dq :: (v ++ dq :: rest)) = some (v, rest) := by
  simp only [quotedP, quotedAt]
  rw [skipWs_nows _ (by exact (by decide : wsChar dq = false))]
  dsimp only
  rw [if_pos (by simp)]
  have hm := munchF_goodV v rest ((v ++ dq :: rest).length + 1) (by simp [List.length_append]; omega) hv hr
  rw [hm]
  dsimp only
  rw [if_pos (by simp)]

theorem nvpP_eq (c : Char) (nw : List Char) (v rest : List Char)
    (hc : isAlphaCh c = true) (hnw : nw.all isAlnumCh = true)
    (hv : v.all goodVChar = true) (hr : headNot (fun ch => ch == dq) rest) :
    nvpP (c :: (nw ++ '=' :: dq :: (v ++ dq :: rest))) = some ((c :: nw, v), rest) := by
  simp only [nvpP]
  rw [wordInitP_eq isAlphaCh isAlnumCh c nw ('=' :: dq :: (v ++ dq :: rest)) hc
    (not_ws_of_alpha c hc) hnw (by exact (by decide : isAlnumCh '=' = false))]
  dsimp only
  rw [show ('=' :: dq :: (v ++ dq :: rest)) = ['='] ++ (dq :: (v ++ dq :: rest)) from rfl]
  rw [litP_eq ['='] (dq :: (v ++ dq :: rest)) (by exact (by decide : wsChar '=' = false))]
  dsimp only
  rw [quotedP_eq v rest hv hr]

theorem wordInitP_ws (init body : Char → Bool) (c : Char) (cs : List Char)
    (h : wsChar c = true) : wordInitP init body (c :: cs) = wordInitP init body cs := by
  simp only [wordInitP]
  rw [skipWs_ws c cs h]

theorem nvpP_ws (c : Char) (cs : List Char) (h : wsChar c = true) :
    nvpP (c :: cs) = nvpP cs := by
  simp only [nvpP]
  rw [wordInitP_ws isAlphaCh isAlnumCh c cs h]

theorem nvpP_none_of_no_eq (c : Char) (nw rest : List Char)
    (hc : isAlphaCh c = true) (hnw : nw.all isAlnumCh = true)
    (hr : headNot isAlnumCh rest) (hlit : litP ['='] rest = none) :
    nvpP (c :: (nw ++ rest)) = none := by
  simp only [nvpP]
  rw [wordInitP_eq isAlphaCh isAlnumCh c nw rest hc (not_ws_of_alpha c hc) hnw hr]
  dsimp only
  rw [hlit]

theorem nvpP_none_sep (t : List Char) (ht : SepTail t) : nvpP t = none := by
  rcases ht with h | ⟨u, h⟩ <;> subst h
  · rfl
  · simp only [nvpP, wordInitP]
    rw [skipWs_nows _ (by exact (by decide : wsChar ',' = false))]
    dsimp only
    rw [if_neg (by decide)]

theorem sepTail_litP_eq_none (t : List Char) (ht : SepTail t) : litP ['='] t = none := by
  rcases ht with h | ⟨u, h⟩ <;> subst h
  · rfl
  · exact litP_none_head '=' ',' u (by decide) (by decide)

theorem sepTail_headNot_alnum (t : List Char) (ht : SepTail t) : headNot isAlnumCh t := by
  rcases ht with h | ⟨u, h⟩ <;> subst h
  · exact trivial
  · exact (by decide : isAlnumCh ',' = false)

theorem sepTail_headNot_dq (t : List Char) (ht : SepTail t) :
    headNot (fun c => c == dq) t := by
  rcases ht with h | ⟨u, h⟩ <;> subst h
  · exact trivial
  · exact (by decide : ((',' == dq)) = false)

theorem sepTail_headNot_tokenChar (t : List Char) (ht : SepTail t) :
    headNot tokenChar t := by
  rcases ht with h | ⟨u, h⟩ <;> subst h
  · exact trivial
  · exact (by decide : tokenChar ',' = false)

theorem paramsP_none_sep (t : List Char) (ht : SepTail t) : paramsP t = none := by
  simp only [paramsP]
  rw [nvpP_none_sep t ht]

end OpenapiCommon

namespace OpenapiCommon

theorem nvpP_eq_str (n : String) (v rest : List Char)
    (hn : nameOk n.toList = true)
    (hv : v.all goodVChar = true) (hr : headNot (fun ch => ch == dq) rest) :
    nvpP (n.toList ++ '=' :: dq :: (v ++ dq :: rest)) = some ((n.toList, v), rest) := by
  cases hcase : n.toList with
  | nil => rw [hcase] at hn; simp [nameOk] at hn
  | cons c nw =>
    rw [hcase] at hn
    simp only [nameOk, Bool.and_eq_true] at hn
    exact nvpP_eq c nw v rest hn.1 hn.2 hv hr

theorem nvpP_none_of_no_eq_str (n : String) (rest : List Char)
    (hn : nameOk n.toList = true)
    (hr : headNot isAlnumCh rest) (hlit : litP ['='] rest = none) :
    nvpP (n.toList ++ rest) = none := by
  cases hcase : n.toList with
  | nil => rw [hcase] at hn; simp [nameOk] at hn
  | cons c nw =>
    rw [hcase] at hn
    simp only [nameOk, Bool.and_eq_true] at hn
    exact nvpP_none_of_no_eq c nw rest hn.1 hn.2 hr hlit

theorem litP_none_str (l : Char) (n : String) (u : List Char) (c : Char) (nw : List Char)
    (hcase : n.toList = c :: nw) (h1 : wsChar c = false) (h2 : (l == c) = false) :
    litP [l] (n.toList ++ u) = none := by
  rw [hcase]
  exact litP_none_head l c _ h1 h2

theorem renderPair_append (n v : String) (rest : List Char) :
    renderPair n v ++ rest = n.toList ++ '=' :: dq :: (v.toList ++ dq :: rest) := by
  simp [renderPair, List.append_assoc]

theorem nvpP_none_at_form (f : ChForm) (t : List Char) (ht : SepTail t) :
    nvpP (' ' :: (f.render ++ t)) = none := by
  rw [nvpP_ws ' ' _ (by decide)]
  cases f with
  | negotiate =>
    exact nvpP_none_of_no_eq_str "Negotiate" t (by decide)
      (sepTail_headNot_alnum t ht) (sepTail_litP_eq_none t ht)
  | bearer r =>
    have hsh : (ChForm.bearer r).render ++ t
        = "Bearer".toList ++ (' ' :: (renderPair "realm" r ++ t)) := by
      simp [ChForm.render, List.append_assoc]
    rw [hsh]
    apply nvpP_none_of_no_eq_str "Bearer" _ (by decide)
      (by exact (by decide : isAlnumCh ' ' = false))
    rw [litP_ws _ ' ' _ (by decide)]
    rw [renderPair_append]
    exact litP_none_str '=' "realm" _ 'r' "ealm".toList rfl (by decide) (by decide)
  | digest r q nn o =>
    have hsh : (ChForm.digest r q nn o).render ++ t
        = "Digest".toList ++ (' ' :: (renderPair "realm" r
            ++ (renderPairsTail [("qop", q), ("nonce", nn), ("opaque", o)] ++ t))) := by
      simp [ChForm.render, List.append_assoc]
    rw [hsh]
    apply nvpP_none_of_no_eq_str "Digest" _ (by decide)
      (by exact (by decide : isAlnumCh ' ' = false))
    rw [litP_ws _ ' ' _ (by decide)]
    rw [show renderPair "realm" r ++ (renderPairsTail [("qop", q), ("nonce", nn), ("opaque", o)] ++ t)
        = renderPair "realm" r ++ (renderPairsTail [("qop", q), ("nonce", nn), ("opaque", o)] ++ t) from rfl]
    rw [renderPair_append]
    exact litP_none_str '=' "realm" _ 'r' "ealm".toList rfl (by decide) (by decide)

theorem sepTail_of_tailForms (t : List Char) (ht : TailForms t) : SepTail t := by
  cases ht with
  | nil => exact Or.inl rfl
  | cons f t2 hg ht2 => exact Or.inr ⟨_, rfl⟩

theorem commaNvp_cons (cs : List Char) : commaNvp (',' :: cs) = nvpP cs := by
  simp only [commaNvp]
  rw [show (',' :: cs) = [','] ++ cs from rfl]
  rw [litP_eq [','] cs (by exact (by decide : wsChar ',' = false))]

theorem commaNvp_none_tail (t : List Char) (ht : TailForms t) : commaNvp t = none := by
  cases ht with
  | nil => rfl
  | cons f t2 hg ht2 =>
    rw [commaNvp_cons]
    exact nvpP_none_at_form f t2 (sepTail_of_tailForms t2 ht2)

end OpenapiCommon

namespace OpenapiCommon

theorem paramsTailF_render (pairs : List (String × String)) (t : List Char)
    (hp : ∀ pr ∈ pairs, nameOk pr.1.toList = true ∧ pr.2.toList.all goodVChar = true)
    (hstop : commaNvp t = none) (hdq : headNot (fun c => c == dq) t) :
    ∀ fuel : Nat, (renderPairsTail pairs ++ t).length < fuel →
    paramsTailF fuel (renderPairsTail pairs ++ t)
      = (pairs.map (fun pr => (pr.1.toList, pr.2.toList)), t) := by
  induction pairs with
  | nil =>
    intro fuel hf
    cases fuel with
    | zero => exact absurd hf (by simp)
    | succ nfuel =>
      simp only [renderPairsTail, List.nil_append, List.map_nil]
      simp only [paramsTailF]
      rw [hstop]
  | cons pr ps ih =>
    intro fuel hf
    cases fuel with
    | zero => exact absurd hf (by simp)
    | succ nfuel =>
      have hsh : renderPairsTail (pr :: ps) ++ t
          = ',' :: (' ' :: (renderPair pr.1 pr.2 ++ (renderPairsTail ps ++ t))) := by
        simp [renderPairsTail, List.append_assoc]
      rw [hsh]
      simp only [paramsTailF]
      rw [commaNvp_cons]
      rw [nvpP_ws ' ' _ (by decide)]
      rw [renderPair_append]
      have hpr := hp pr (by simp)
      have hdq2 : headNot (fun c => c == dq) (renderPairsTail ps ++ t) := by
        cases ps with
        | nil => simpa [renderPairsTail] using hdq
        | cons p2 ps2 => exact (by decide : ((',' == dq)) = false)
      rw [nvpP_eq_str pr.1 pr.2.toList (renderPairsTail ps ++ t) hpr.1 hpr.2 hdq2]
      dsimp only
      have hlen : (renderPairsTail ps ++ t).length < nfuel := by
        rw [hsh] at hf
        simp only [List.length_cons, List.length_append] at hf ⊢
        omega
      rw [ih (fun x hx => hp x (by simp [hx])) nfuel hlen]
      simp

theorem paramsP_render (n v : String) (ps : List (String × String)) (t : List Char)
    (hn : nameOk n.toList = true) (hv : v.toList.all goodVChar = true)
    (hp : ∀ pr ∈ ps, nameOk pr.1.toList = true ∧ pr.2.toList.all goodVChar = true)
    (hstop : commaNvp t = none) (hdq : headNot (fun c => c == dq) t) :
    paramsP (renderPair n v ++ (renderPairsTail ps ++ t))
      = some ((n.toList, v.toList) :: ps.map (fun pr => (pr.1.toList, pr.2.toList)), t) := by
  simp only [paramsP]
  rw [renderPair_append]
  have hdq2 : headNot (fun c => c == dq) (renderPairsTail ps ++ t) := by
    cases ps with
    | nil => simpa [renderPairsTail] using hdq
    | cons p2 ps2 => exact (by decide : ((',' == dq)) = false)
  rw [nvpP_eq_str n v.toList (renderPairsTail ps ++ t) hn hv hdq2]
  dsimp only
  rw [paramsTailF_render ps t hp hstop hdq ((renderPairsTail ps ++ t).length + 1) (by omega)]

end OpenapiCommon

namespace OpenapiCommon

theorem paramsP_ws (c : Char) (cs : List Char) (h : wsChar c = true) :
    paramsP (c :: cs) = paramsP cs := by
  simp only [paramsP]
  rw [nvpP_ws c cs h]

theorem credP_negotiate (t : List Char) (ht : TailForms t) :
    credP (ChForm.negotiate.render ++ t) = some (ChForm.negotiate.credOf, t) := by
  have hsep := sepTail_of_tailForms t ht
  simp only [credP, ChForm.render]
  rw [wordP_eq tokenChar "Negotiate".toList t (by decide) (by decide)
    (sepTail_headNot_tokenChar t hsep) (by exact (by decide : wsChar 'N' = false))]
  dsimp only
  rw [paramsP_none_sep t hsep, token68P_none_sep t hsep]
  rfl

theorem credP_bearer (r : String) (t : List Char) (hg : (ChForm.bearer r).good = true)
    (ht : TailForms t) :
    credP ((ChForm.bearer r).render ++ t) = some ((ChForm.bearer r).credOf, t) := by
  have hsep := sepTail_of_tailForms t ht
  have hstop := commaNvp_none_tail t ht
  have hdq := sepTail_headNot_dq t hsep
  simp only [ChForm.good, goodVal] at hg
  have hsh : (ChForm.bearer r).render ++ t
      = "Bearer".toList ++ (' ' :: (renderPair "realm" r ++ (renderPairsTail [] ++ t))) := by
    simp [ChForm.render, renderPairsTail, List.append_assoc]
  rw [hsh]
  simp only [credP]
  rw [wordP_eq tokenChar "Bearer".toList _ (by decide) (by decide)
    (by exact (by decide : tokenChar ' ' = false)) (by exact (by decide : wsChar 'B' = false))]
  dsimp only
  rw [paramsP_ws ' ' _ (by decide)]
  rw [paramsP_render "realm" r [] t (by decide) hg (by intro x hx; simp at hx) hstop hdq]
  rw [token68P_ws ' ' _ (by decide)]
  rw [renderPair_append]
  rw [token68P_shape "realm".toList _ (by decide) (by decide)
    (by exact (by decide : wsChar 'r' = false))]
  dsimp only
  rw [if_pos (by
    simp only [renderPairsTail, List.nil_append, List.length_cons, List.length_append]
    omega)]
  simp [ChForm.credOf]

theorem credP_digest (r q nn o : String) (t : List Char)
    (hg : (ChForm.digest r q nn o).good = true) (ht : TailForms t) :
    credP ((ChForm.digest r q nn o).render ++ t) = some ((ChForm.digest r q nn o).credOf, t) := by
  have hsep := sepTail_of_tailForms t ht
  have hstop := commaNvp_none_tail t ht
  have hdq := sepTail_headNot_dq t hsep
  simp only [ChForm.good, goodVal, Bool.and_eq_true] at hg
  obtain ⟨⟨⟨hgr, hgq⟩, hgn⟩, hgo⟩ := hg
  have hsh : (ChForm.digest r q nn o).render ++ t
      = "Digest".toList ++ (' ' :: (renderPair "realm" r
          ++ (renderPairsTail [("qop", q), ("nonce", nn), ("opaque", o)] ++ t))) := by
    simp [ChForm.render, List.append_assoc]
  rw [hsh]
  simp only [credP]
  rw [wordP_eq tokenChar "Digest".toList _ (by decide) (by decide)
    (by exact (by decide : tokenChar ' ' = false)) (by exact (by decide : wsChar 'D' = false))]
  dsimp only
  rw [paramsP_ws ' ' _ (by decide)]
  rw [paramsP_render "realm" r [("qop", q), ("nonce", nn), ("opaque", o)] t (by decide) hgr
    (by
      intro x hx
      simp only [List.mem_cons, List.not_mem_nil, or_false] at hx
      rcases hx with hx | hx | hx
      · subst hx; exact ⟨(by decide : nameOk "qop".toList = true), hgq⟩
      · subst hx; exact ⟨(by decide : nameOk "nonce".toList = true), hgn⟩
      · subst hx; exact ⟨(by decide : nameOk "opaque".toList = true), hgo⟩)
    hstop hdq]
  rw [token68P_ws ' ' _ (by decide)]
  rw [renderPair_append]
  rw [token68P_shape "realm".toList _ (by decide) (by decide)
    (by exact (by decide : wsChar 'r' = false))]
  dsimp only
  rw [if_pos (by
    simp only [renderPairsTail, List.length_cons, List.length_append]
    omega)]
  simp [ChForm.credOf]

theorem credP_form (f : ChForm) (t : List Char) (hg : f.good = true) (ht : TailForms t) :
    credP (f.render ++ t) = some (f.credOf, t) := by
  cases f with
  | negotiate => exact credP_negotiate t ht
  | bearer r => exact credP_bearer r t hg ht
  | digest r q nn o => exact credP_digest r q nn o t hg ht

theorem tailForms_renderTail (fs : List ChForm) (hg : ∀ f ∈ fs, f.good = true) :
    TailForms (renderTail fs) := by
  induction fs with
  | nil => exact TailForms.nil
  | cons f fs2 ih =>
    exact TailForms.cons f (renderTail fs2) (hg f (by simp))
      (ih (fun x hx => hg x (by simp [hx])))

theorem authTailF_render (fs : List ChForm) (hg : ∀ f ∈ fs, f.good = true) :
    ∀ fuel : Nat, (renderTail fs).length < fuel →
    authTailF fuel (renderTail fs) = (fs.map ChForm.credOf, []) := by
  induction fs with
  | nil =>
    intro fuel hf
    cases fuel with
    | zero => exact absurd hf (by simp)
    | succ n => rfl
  | cons f fs2 ih =>
    intro fuel hf
    cases fuel with
    | zero => exact absurd hf (by simp)
    | succ n =>
      simp only [renderTail, authTailF, delimCred]
      rw [show (',' :: ' ' :: (f.render ++ renderTail fs2))
          = [',', ' '] ++ (f.render ++ renderTail fs2) from rfl]
      rw [litP_eq [',', ' '] _ (by exact (by decide : wsChar ',' = false))]
      dsimp only
      rw [credP_form f (renderTail fs2) (hg f (by simp))
        (tailForms_renderTail fs2 (fun x hx => hg x (by simp [hx])))]
      dsimp only
      rw [ih (fun x hx => hg x (by simp [hx])) n (by
        simp only [renderTail, List.length_cons, List.length_append] at hf
        omega)]
      simp

theorem renderForms_eq (g : ChForm) (gs : List ChForm) :
    renderForms (g :: gs) = g.render ++ renderTail gs := by
  induction gs generalizing g with
  | nil => simp [renderForms, renderTail]
  | cons g2 gs2 ih =>
    simp only [renderForms, renderTail]
    rw [ih g2]

theorem authP_render (f : ChForm) (fs : List ChForm)
    (hg : ∀ x ∈ f :: fs, x.good = true) :
    authP (renderForms (f :: fs)) = some ((f :: fs).map ChForm.credOf, []) := by
  rw [renderForms_eq]
  simp only [authP]
  rw [credP_form f (renderTail fs) (hg f (by simp))
    (tailForms_renderTail fs (fun x hx => hg x (by simp [hx])))]
  dsimp only
  rw [authTailF_render fs (fun x hx => hg x (by simp [hx]))
    ((renderTail fs).length + 1) (by omega)]
  rfl

end OpenapiCommon

namespace OpenapiCommon

theorem ciodSet_fresh {α : Type} (d : List (String × α)) (k : String) (v : α)
    (h : d.any (fun p => p.1 == pyLower k) = false) :
    ciodSet d k v = d ++ [(pyLower k, v)] := by
  simp only [ciodSet, h]
  simp

theorem renderOptions_credOf (f : ChForm) : renderOptions f.credOf = f.expectedVal := by
  cases f <;> rfl

theorem credOf_key (f : ChForm) : pyLower (String.mk f.credOf.scheme) = f.key := by
  cases f <;> rfl

theorem foldOut (fs : List ChForm) (acc : List (String × SchemeVal))
    (hfresh : ∀ f ∈ fs, acc.any (fun pr => pr.1 == f.key) = false)
    (hnd : (fs.map ChForm.key).Nodup) :
    (fs.map ChForm.credOf).foldl
      (fun out sch => ciodSet out (String.mk sch.scheme) (renderOptions sch)) acc
      = acc ++ fs.map (fun f => (f.key, f.expectedVal)) := by
  induction fs generalizing acc with
  | nil => simp
  | cons f fs2 ih =>
    simp only [List.map_cons, List.foldl_cons]
    have hset : ciodSet acc (String.mk f.credOf.scheme) (renderOptions f.credOf)
        = acc ++ [(f.key, f.expectedVal)] := by
      rw [ciodSet_fresh acc _ _ (by rw [credOf_key]; exact hfresh f (by simp))]
      rw [credOf_key, renderOptions_credOf]
    rw [hset]
    simp only [List.map_cons, List.nodup_cons] at hnd
    have hfr2 : ∀ g ∈ fs2,
        (acc ++ [(f.key, f.expectedVal)]).any (fun pr => pr.1 == g.key) = false := by
      intro g hgmem
      rw [List.any_append]
      have h1 := hfresh g (by simp [hgmem])
      have hne : f.key ≠ g.key := by
        intro heq
        exact hnd.1 (heq ▸ List.mem_map_of_mem ChForm.key hgmem)
      have h2 : (f.key == g.key) = false := by
        simpa using hne
      simp [h1, h2]
    rw [ih (acc ++ [(f.key, f.expectedVal)]) hfr2 hnd.2]
    simp

/-- C3: round-trip. For any non-empty set of at most three challenges drawn
from the forms `Negotiate`, `Bearer realm="..."` and
`Digest realm="...", qop="...", nonce="...", opaque="..."` (distinct schemes,
parameter values over the unescaped quotable characters), rendering them
joined with `", "` and parsing the result with `parse_authenticate` recovers
exactly that set: one entry per scheme keyed by the lowercased scheme name,
whose value preserves the parameter insertion order of that scheme alone. -/
theorem c3_round_trip (fs : List ChForm)
    (hne : fs ≠ []) (hlen : fs.length ≤ 3)
    (hnd : (fs.map ChForm.key).Nodup)
    (hg : ∀ f ∈ fs, f.good = true) :
    parseAuthenticate (String.mk (renderForms fs)) =
      Except.ok (fs.map (fun f => (f.key, f.expectedVal))) := by
  cases fs with
  | nil => exact absurd rfl hne
  | cons f fs2 =>
    simp only [parseAuthenticate, parseHeader]
    have hA : authP (String.mk (renderForms (f :: fs2))).toList
        = some ((f :: fs2).map ChForm.credOf, []) := authP_render f fs2 hg
    rw [hA]
    dsimp only
    rw [if_pos (show (skipWs ([] : List Char)).isEmpty = true from rfl)]
    rw [foldOut (f :: fs2) [] (by intro g hgm; rfl) hnd]
    simp

/-- C3 witness: the theorem applied at the three-challenge header
`Negotiate, Bearer realm="example.com", Digest realm="testrealm@host.com",
qop="auth,auth-int", nonce="dcd98b7102dd2f0e", opaque="5ccc069c"`. -/
theorem c3_round_trip_witness :
    parseAuthenticate (String.mk (renderForms
      [ChForm.negotiate, ChForm.bearer "example.com",
       ChForm.digest "testrealm@host.com" "auth,auth-int" "dcd98b7102dd2f0e" "5ccc069c"])) =
      Except.ok [("negotiate", SchemeVal.nul),
        ("bearer", SchemeVal.paramMap [("realm", "example.com")]),
        ("digest", SchemeVal.paramMap
          [("realm", "testrealm@host.com"), ("qop", "auth,auth-int"),
           ("nonce", "dcd98b7102dd2f0e"), ("opaque", "5ccc069c")])] :=
  c3_round_trip
    [ChForm.negotiate, ChForm.bearer "example.com",
     ChForm.digest "testrealm@host.com" "auth,auth-int" "dcd98b7102dd2f0e" "5ccc069c"]
    (by decide) (by decide) (by decide) (by decide)

end OpenapiCommon
